import Mathlib

/-!
Shallow embedding of the L1Beat indexer REST query plugins
(`src/plugins/gas_usage_api.ts`, `src/plugins/daily_active_addresses_api.ts`,
`src/plugins/latestBlockAPI.ts`, `src/plugins/messagingComparisonAPI.ts`).

Conventions of the embedding:
* Unix timestamps are `ℤ` (JavaScript numbers holding integral seconds);
  counters (gas, tx counts, message counts) are `ℕ`.
* SQL tables are lists of row structures; `WHERE`/`ORDER BY`/aggregate
  clauses become filters, sorts and folds over those lists.
* Fastify handlers become total functions returning `Except ApiError _`;
  the 404 "Chain not found" reply is the `chainNotFound` error value.
* `Date.now()` is passed in explicitly as a `now` parameter.
-/

namespace L1Beat

/-- Chain configuration entry supplied by the chain registry
(`dbCtx.getAllChainConfigs()` in the plugins). -/
structure ChainConfig where
  evmChainId : ℤ
  chainName : String
  blockchainId : String
deriving Repr, DecidableEq

/-- Error taxonomy surfaced by the query handlers; `chainNotFound` models the
404 reply `Chain ${evmChainId} not found`. -/
inductive ApiError where
  | chainNotFound (evmChainId : ℤ)
deriving Repr, DecidableEq

/-- Registry lookup performed by the handlers:
`dbCtx.getAllChainConfigs().find((c) => c.evmChainId === evmChainId)`. -/
def findChain (registry : List ChainConfig) (evmChainId : ℤ) : Option ChainConfig :=
  registry.find? (fun c => c.evmChainId == evmChainId)

/-- Row of the `cumulative_tx_counts` table of the `minute_tx_counter`
indexer: one row per minute boundary, cumulative gas as a natural. -/
structure CumRow where
  minute_ts : ℤ
  cumulative_gas_used : ℕ
deriving Repr, DecidableEq

/-- Fold step of the as-of lookup: keep the row with the largest
`minute_ts` not exceeding `ts` seen so far (the earlier row on a tie). -/
def latestStep (ts : ℤ) (acc : Option CumRow) (r : CumRow) : Option CumRow :=
  if r.minute_ts ≤ ts then
    match acc with
    | none => some r
    | some b => if b.minute_ts < r.minute_ts then some r else some b
  else acc

/-- SQL query `SELECT ... WHERE minute_ts <= ? ORDER BY minute_ts DESC
LIMIT 1`: the row with maximal `minute_ts` among those with
`minute_ts <= ts`, `none` when no row qualifies.  Modelled
order-independently as a fold, since a SQL table carries no intrinsic
row order. -/
def latestAtOrBefore (rows : List CumRow) (ts : ℤ) : Option CumRow :=
  rows.foldl (latestStep ts) none

/-- Value the handlers read off the as-of lookup:
`result?.cumulative_gas_used || 0` — the cumulative value of the selected
row, `0` when no row has `minute_ts <= ts`. -/
def cumulativeAsOf (rows : List CumRow) (ts : ℤ) : ℕ :=
  (latestAtOrBefore rows ts).elim 0 (fun r => r.cumulative_gas_used)

/-- JavaScript `Math.round`: nearest integer, halves toward positive
infinity. -/
def jsRound (q : ℚ) : ℤ := ⌊q + 1/2⌋

/-- JavaScript `Math.ceil((endTimestamp - startTimestamp) / 86400)` over
exact rationals. -/
def periodDaysOf (startTimestamp endTimestamp : ℤ) : ℤ :=
  ⌈((endTimestamp - startTimestamp : ℤ) : ℚ) / 86400⌉

instance {ε α : Type} [DecidableEq ε] [DecidableEq α] : DecidableEq (Except ε α)
  | .error a, .error b =>
      if h : a = b then .isTrue (by rw [h]) else .isFalse (by simp [h])
  | .error _, .ok _ => .isFalse (by simp)
  | .ok _, .error _ => .isFalse (by simp)
  | .ok a, .ok b =>
      if h : a = b then .isTrue (by rw [h]) else .isFalse (by simp [h])

/-- Response shape of the gas-usage-period endpoint.  The served
`avgDailyGasUsed` is an integer because the handler applies `Math.round`
before replying. -/
structure GasUsagePeriodResult where
  totalGasUsed : ℕ
  avgDailyGasUsed : ℤ
deriving Repr, DecidableEq

/-- Handler `/api/:evmChainId/stats/gas-usage-period`
(`gas_usage_api.ts` lines 91-142): validates the chain against the
registry, reads the cumulative counter at both period endpoints, returns
`Math.max(0, endGas - startGas)` (natural subtraction) and `Math.round`
of the per-day average, the average being `0` when `periodDays <= 0`. -/
def gasUsagePeriod (registry : List ChainConfig) (evmChainId : ℤ)
    (startTimestamp endTimestamp : ℤ) (rows : List CumRow) :
    Except ApiError GasUsagePeriodResult :=
  match findChain registry evmChainId with
  | none => .error (.chainNotFound evmChainId)
  | some _ =>
    let startGas := cumulativeAsOf rows startTimestamp
    let endGas := cumulativeAsOf rows endTimestamp
    let totalGasUsed := endGas - startGas
    let periodDays := periodDaysOf startTimestamp endTimestamp
    let avgDailyGasUsed : ℚ :=
      if 0 < periodDays then (totalGasUsed : ℚ) / (periodDays : ℚ) else 0
    .ok ⟨totalGasUsed, jsRound avgDailyGasUsed⟩

/-- Response of the cumulative-gas endpoint: `{timestamp, cumulativeGasUsed}`. -/
structure CumulativeGasResult where
  timestamp : ℤ
  cumulativeGasUsed : ℕ
deriving Repr, DecidableEq

/-- JavaScript truthiness of the optional `timestamp` query parameter
(`if (queryTimestamp)` and `queryTimestamp || ...`): `undefined` and `0`
are falsy, every other integer is truthy. -/
def tsTruthy : Option ℤ → Bool
  | none => false
  | some t => t != 0

/-- Minute flooring `Math.floor(queryTimestamp / 60) * 60`. -/
def minuteFloor (t : ℤ) : ℤ := 60 * ⌊(t : ℚ) / 60⌋

/-- SQL query `SELECT ... ORDER BY minute_ts DESC LIMIT 1` with no
`WHERE` clause: the row with maximal `minute_ts`. -/
def latestRow (rows : List CumRow) : Option CumRow :=
  rows.foldl (fun acc r =>
    match acc with
    | none => some r
    | some b => if b.minute_ts < r.minute_ts then some r else some b) none

/-- Handler `/api/:evmChainId/stats/cumulative-gas`
(`gas_usage_api.ts` lines 197-250): with a truthy timestamp it floors it
to the minute and looks up the latest row at or before it, otherwise it
takes the latest row overall; an empty lookup yields cumulative value `0`
stamped with the supplied timestamp when truthy, else with the clock time
`now`. -/
def cumulativeGas (registry : List ChainConfig) (evmChainId : ℤ) (now : ℤ)
    (queryTimestamp : Option ℤ) (rows : List CumRow) :
    Except ApiError CumulativeGasResult :=
  match findChain registry evmChainId with
  | none => .error (.chainNotFound evmChainId)
  | some _ =>
    let result : Option CumRow :=
      if tsTruthy queryTimestamp then
        latestAtOrBefore rows (minuteFloor (queryTimestamp.getD 0))
      else latestRow rows
    match result with
    | none =>
        .ok ⟨if tsTruthy queryTimestamp then queryTimestamp.getD 0 else now, 0⟩
    | some r => .ok ⟨r.minute_ts, r.cumulative_gas_used⟩

/-- Row of the `minute_tx_counts` table: gas used during one minute. -/
structure MinuteRow where
  minute_ts : ℤ
  gas_used : ℕ
deriving Repr, DecidableEq

/-- Entry of the daily-gas series. -/
structure DailyGasPoint where
  timestamp : ℤ
  gasUsed : ℕ
deriving Repr, DecidableEq

/-- Handler `/api/:evmChainId/stats/daily-gas`
(`gas_usage_api.ts` lines 310-357): for `i = 0 .. days-1` sums
`minute_tx_counts.gas_used` over the half-open 24h window
`[now - (i+1)*86400, now - i*86400)` (absent minutes contribute `0`, a
`NULL` sum reads as `0`), labels the point with the window start, then
reverses into chronological order. -/
def dailyGas (registry : List ChainConfig) (evmChainId : ℤ) (now : ℤ)
    (days : ℕ) (rows : List MinuteRow) : Except ApiError (List DailyGasPoint) :=
  match findChain registry evmChainId with
  | none => .error (.chainNotFound evmChainId)
  | some _ =>
    .ok (((List.range days).map (fun i : ℕ =>
      let periodEnd := now - (i : ℤ) * 86400
      let periodStart := periodEnd - 86400
      ⟨periodStart,
       ((rows.filter (fun r => periodStart ≤ r.minute_ts ∧ r.minute_ts < periodEnd)).map
         (fun r => r.gas_used)).sum⟩)).reverse)

/-- Row of the `daily_address_activity` table: one address seen active on
one day. -/
structure DailyActivityRow where
  day_ts : ℤ
  address : String
deriving Repr, DecidableEq

/-- Row of the `daily_active_counts` table. -/
structure DailyCountRow where
  day_ts : ℤ
  active_addresses : ℕ
  total_txs : ℕ
deriving Repr, DecidableEq

/-- Storage of the `daily_active_addresses` indexer: both tables. -/
structure AddressStore where
  activity : List DailyActivityRow
  counts : List DailyCountRow

/-- Day flooring `Math.floor(ts / 86400) * 86400`. -/
def dayFloor (t : ℤ) : ℤ := 86400 * ⌊(t : ℚ) / 86400⌋

/-- Response of the active-addresses-period endpoint.  The served
`avgDailyActiveAddresses` is the exact quotient (no rounding in the
handler), hence `ℚ`. -/
structure PeriodActiveAddressesResult where
  totalActiveAddresses : ℕ
  avgDailyActiveAddresses : ℚ
  totalTransactions : ℕ
deriving Repr, DecidableEq

/-- Handler `/api/:evmChainId/stats/active-addresses-period`
(`daily_active_addresses_api.ts` lines 101-151): floors both timestamps
to day boundaries, counts distinct addresses with
`startDay <= day_ts <= endDay`, and averages the per-day active counts
over the number of day rows found (`0` when none). -/
def activeAddressesPeriod (registry : List ChainConfig) (evmChainId : ℤ)
    (startTimestamp endTimestamp : ℤ) (store : AddressStore) :
    Except ApiError PeriodActiveAddressesResult :=
  match findChain registry evmChainId with
  | none => .error (.chainNotFound evmChainId)
  | some _ =>
    let startDay := dayFloor startTimestamp
    let endDay := dayFloor endTimestamp
    let uniqueAddresses :=
      ((store.activity.filter (fun r => startDay ≤ r.day_ts ∧ r.day_ts ≤ endDay)).map
        (fun r => r.address)).dedup.length
    let dailyResults := store.counts.filter (fun r => startDay ≤ r.day_ts ∧ r.day_ts ≤ endDay)
    let sumActive := (dailyResults.map (fun r => r.active_addresses)).sum
    let totalTransactions := (dailyResults.map (fun r => r.total_txs)).sum
    .ok ⟨uniqueAddresses,
      if 0 < dailyResults.length then (sumActive : ℚ) / (dailyResults.length : ℚ) else 0,
      totalTransactions⟩

/-- Stable insertion step of a descending sort by `key`: the incoming
element is placed before the first element whose key does not exceed its
own, matching both SQL `ORDER BY key DESC` and the (stable, per the
ECMAScript standard) JavaScript `Array.prototype.sort` under the
comparator `(a, b) => key(b) - key(a)`. -/
def insertDescBy {α β : Type} [LinearOrder β] (key : α → β) (x : α) :
    List α → List α
  | [] => [x]
  | h :: t => if key h ≤ key x then x :: h :: t else h :: insertDescBy key x t

/-- Stable descending sort by `key` (insertion sort). -/
def sortDescBy {α β : Type} [LinearOrder β] (key : α → β) (l : List α) : List α :=
  l.foldr (insertDescBy key) []

/-- Entry of the daily-active-addresses series. -/
structure DailyActivePoint where
  timestamp : ℤ
  activeAddresses : ℕ
  transactions : ℕ
deriving Repr, DecidableEq

/-- Handler `/api/:evmChainId/stats/daily-active-addresses`
(`daily_active_addresses_api.ts` lines 215-254): selects the
`daily_active_counts` rows of the last `days` calendar days (current day
included) with `ORDER BY day_ts DESC`, and serves them in that
descending order — the handler performs no reversal. -/
def dailyActiveAddresses (registry : List ChainConfig) (evmChainId : ℤ)
    (now : ℤ) (days : ℕ) (store : AddressStore) :
    Except ApiError (List DailyActivePoint) :=
  match findChain registry evmChainId with
  | none => .error (.chainNotFound evmChainId)
  | some _ =>
    let currentDay := dayFloor now
    let startDay := currentDay - ((days : ℤ) - 1) * 86400
    let rows := store.counts.filter (fun r => startDay ≤ r.day_ts ∧ r.day_ts ≤ currentDay)
    .ok ((sortDescBy (fun r => r.day_ts) rows).map
      (fun r => ⟨r.day_ts, r.active_addresses, r.total_txs⟩))

/-- Clamp of the requested count of 30-day windows in the messaging
comparison handler (`messagingComparisonAPI.ts` lines 132-133):
`Math.max(1, Math.min(24, typeof count === 'number' ? count : 12))`. -/
def clampWindowCount (requested : Option ℤ) : ℤ :=
  max 1 (min 24 (requested.getD 12))

/-- Number of seconds in one 30-day comparison window. -/
def windowSeconds : ℤ := 86400 * 30

/-- Window list as built by the comparison handler loop
(`messagingComparisonAPI.ts` lines 136-142) before the final `reverse`:
each iteration pushes `{fromTs: endTs - windowSeconds, toTs: endTs}` and
continues from `fromTs`. -/
def buildWindowsRev : ℕ → ℤ → List (ℤ × ℤ)
  | 0, _ => []
  | n + 1, endTs =>
      (endTs - windowSeconds, endTs) :: buildWindowsRev n (endTs - windowSeconds)

/-- Chronological window list: the loop output reversed
(`windows.reverse()`), so the last window is `[now - 30d, now]`. -/
def buildWindows (now : ℤ) (count : ℕ) : List (ℤ × ℤ) :=
  (buildWindowsRev count now).reverse

/-- SQL count
`SELECT COUNT(*) FROM ... WHERE block_timestamp > ? AND block_timestamp <= ?`
on a message table represented by its list of block timestamps. -/
def countInWindow (timestamps : List ℤ) (fromTs toTs : ℤ) : ℕ :=
  (timestamps.filter (fun t => fromTs < t ∧ t ≤ toTs)).length

/-- Window data point of the comparison endpoint. -/
structure WindowDataPoint where
  fromTs : ℤ
  toTs : ℤ
  layerzero : ℕ
  icm : ℕ
deriving Repr, DecidableEq

/-- Per-chain `data` array of `/api/global/messaging/comparison`
(`messagingComparisonAPI.ts` lines 166-176): one point per window, with
the LayerZero and Teleporter message counts over
`(fromTs, toTs]`. -/
def comparisonChainData (now : ℤ) (requestedCount : Option ℤ)
    (lz tp : List ℤ) : List WindowDataPoint :=
  (buildWindows now (clampWindowCount requestedCount).toNat).map
    (fun w => ⟨w.1, w.2, countInWindow lz w.1 w.2, countInWindow tp w.1 w.2⟩)

/-- Cross-chain messaging protocol tag. -/
inductive Protocol where
  | icm
  | layerzero
deriving Repr, DecidableEq

/-- Chain-pair breakdown row of the detailed comparison endpoint. -/
structure ChainPair where
  otherChainId : String
  protocol : Protocol
  inbound : ℕ
  outbound : ℕ
  total : ℕ
deriving Repr, DecidableEq

/-- Output row of the SQL
`SELECT chain_id, is_outgoing, COUNT(*) ... GROUP BY chain_id, is_outgoing`
on `layerzero_messages` (`chain_id` is numeric). -/
structure LzGroupedRow where
  chain_id : ℤ
  is_outgoing : Bool
  count : ℕ
deriving Repr, DecidableEq

/-- Output row of the SQL
`SELECT other_chain_id, is_outgoing, COUNT(*) ... GROUP BY other_chain_id, is_outgoing`
on `teleporter_messages` (`other_chain_id` is a blockchain-id string). -/
structure TpGroupedRow where
  other_chain_id : String
  is_outgoing : Bool
  count : ℕ
deriving Repr, DecidableEq

/-- One step of the JavaScript `Map` aggregation loop: look up the key
(insertion order preserved, new keys appended at the end) and add the
grouped count to the inbound or outbound slot. -/
def upsertCounts : List (String × ℕ × ℕ) → String → Bool → ℕ → List (String × ℕ × ℕ)
  | [], k, outgoing, c => [(k, if outgoing then (0, c) else (c, 0))]
  | (k', io) :: t, k, outgoing, c =>
      if k' = k then
        (k', if outgoing then (io.1, io.2 + c) else (io.1 + c, io.2)) :: t
      else (k', io) :: upsertCounts t k outgoing c

/-- Aggregation of the LayerZero grouped rows by `chain_id.toString()`
(`messagingComparisonAPI.ts` lines 350-360). -/
def aggLz (rows : List LzGroupedRow) : List (String × ℕ × ℕ) :=
  rows.foldl (fun acc r => upsertCounts acc (toString r.chain_id) r.is_outgoing r.count) []

/-- Aggregation of the Teleporter grouped rows by `other_chain_id`
(`messagingComparisonAPI.ts` lines 393-402). -/
def aggTp (rows : List TpGroupedRow) : List (String × ℕ × ℕ) :=
  rows.foldl (fun acc r => upsertCounts acc r.other_chain_id r.is_outgoing r.count) []

/-- The `chainPairs` array before sorting: LayerZero entries first, then
Teleporter/ICM entries, each with `total = inbound + outbound`
(`messagingComparisonAPI.ts` lines 362-414). -/
def mkChainPairs (lzRows : List LzGroupedRow) (tpRows : List TpGroupedRow) :
    List ChainPair :=
  (aggLz lzRows).map (fun e => ⟨e.1, .layerzero, e.2.1, e.2.2, e.2.1 + e.2.2⟩) ++
    (aggTp tpRows).map (fun e => ⟨e.1, .icm, e.2.1, e.2.2, e.2.1 + e.2.2⟩)

/-- The served chain-pair breakdown:
`chainPairs.sort((a, b) => b.total - a.total)`
(`messagingComparisonAPI.ts` line 417; same comparator at line 627). -/
def detailedChainPairs (lzRows : List LzGroupedRow) (tpRows : List TpGroupedRow) :
    List ChainPair :=
  sortDescBy (fun p => p.total) (mkChainPairs lzRows tpRows)

/-- Summary of one block as used by the N-latest-blocks endpoint.  The
JSON shaping fields that do not affect control flow (hashes, hex gas
strings, miner, size) are elided. -/
structure BlockSummary where
  number : ℤ
  timestamp : ℤ
  transactionCount : ℕ
deriving Repr, DecidableEq

/-- Blocks database helper handle (`dbCtx.getBlocksDbHelper(chainId)`):
last stored block number and block lookup by number. -/
structure BlocksDb where
  lastStoredBlockNumber : ℤ
  getBlock : ℤ → Option BlockSummary

/-- Response of the N-latest-blocks endpoint. -/
structure LatestBlocksResult where
  chainId : ℤ
  latestBlockNumber : ℤ
  blocks : List BlockSummary
deriving Repr, DecidableEq

/-- Handler `/api/:evmChainId/blocks/latest/:count`
(`latestBlockAPI.ts` lines 480-527).  Note: unlike the rollup analytics
handlers, it consults the blocks database directly and performs no
existence check of `evmChainId` against the chain registry — the
registry argument is unused, mirroring the source. -/
def latestBlocksList (_registry : List ChainConfig) (evmChainId : ℤ)
    (db : BlocksDb) (count : ℕ) : Except ApiError LatestBlocksResult :=
  let latestBlockNum := db.lastStoredBlockNumber
  .ok ⟨evmChainId, latestBlockNum,
    (List.range count).filterMap (fun i : ℕ =>
      let blockNum := latestBlockNum - (i : ℤ)
      if 0 ≤ blockNum then db.getBlock blockNum else none)⟩

/-! Characterization of the as-of lookup. -/

theorem latestStep_some_le {ts : ℤ} {acc : Option CumRow} {r c : CumRow}
    (hacc : ∀ b, acc = some b → b.minute_ts ≤ ts)
    (hc : latestStep ts acc r = some c) : c.minute_ts ≤ ts := by
  unfold latestStep at hc
  split at hc
  · cases acc with
    | none => cases hc; assumption
    | some b =>
        simp only at hc
        split at hc <;> cases hc
        · assumption
        · exact hacc _ rfl
  · exact hacc _ hc

theorem latestStep_of_le {ts : ℤ} {acc : Option CumRow} {r : CumRow}
    (h : r.minute_ts ≤ ts) :
    ∃ x, latestStep ts acc r = some x ∧ r.minute_ts ≤ x.minute_ts ∧
      (x = r ∨ acc = some x) := by
  unfold latestStep
  rw [if_pos h]
  cases acc with
  | none => exact ⟨r, rfl, le_refl _, Or.inl rfl⟩
  | some b =>
      simp only
      by_cases hb : b.minute_ts < r.minute_ts
      · exact ⟨r, by rw [if_pos hb], le_refl _, Or.inl rfl⟩
      · exact ⟨b, by rw [if_neg hb], by omega, Or.inr rfl⟩

theorem latestStep_of_not_le {ts : ℤ} {acc : Option CumRow} {r : CumRow}
    (h : ¬ r.minute_ts ≤ ts) : latestStep ts acc r = acc := by
  unfold latestStep
  rw [if_neg h]

theorem latestStep_some_cases {ts : ℤ} {acc : Option CumRow} {r c : CumRow}
    (hc : latestStep ts acc r = some c) :
    (c = r ∧ r.minute_ts ≤ ts) ∨ acc = some c := by
  unfold latestStep at hc
  split at hc
  · cases acc with
    | none => cases hc; exact Or.inl ⟨rfl, by assumption⟩
    | some b =>
        simp only at hc
        split at hc <;> cases hc
        · exact Or.inl ⟨rfl, by assumption⟩
        · exact Or.inr rfl
  · exact Or.inr hc

theorem latestStep_acc_le {ts : ℤ} {acc : Option CumRow} {r b : CumRow}
    (hb : acc = some b) :
    ∃ x, latestStep ts acc r = some x ∧ b.minute_ts ≤ x.minute_ts := by
  subst hb
  unfold latestStep
  split
  · simp only
    by_cases h : b.minute_ts < r.minute_ts
    · exact ⟨r, by rw [if_pos h], by omega⟩
    · exact ⟨b, by rw [if_neg h], le_refl _⟩
  · exact ⟨b, rfl, le_refl _⟩

theorem latestFold_spec (ts : ℤ) (rows : List CumRow) :
    ∀ (acc : Option CumRow), (∀ c, acc = some c → c.minute_ts ≤ ts) →
      (rows.foldl (latestStep ts) acc = none ∧ acc = none ∧
        ∀ r ∈ rows, ¬ r.minute_ts ≤ ts) ∨
      (∃ b, rows.foldl (latestStep ts) acc = some b ∧
        (b ∈ rows ∨ acc = some b) ∧ b.minute_ts ≤ ts ∧
        (∀ r ∈ rows, r.minute_ts ≤ ts → r.minute_ts ≤ b.minute_ts) ∧
        (∀ c, acc = some c → c.minute_ts ≤ b.minute_ts)) := by
  induction rows with
  | nil =>
      intro acc hacc
      cases acc with
      | none => left; simp
      | some c =>
          right
          exact ⟨c, rfl, Or.inr rfl, hacc c rfl, by simp,
            fun d hd => by cases hd; exact le_refl _⟩
  | cons r rs ih =>
      intro acc hacc
      have hacc' : ∀ c, latestStep ts acc r = some c → c.minute_ts ≤ ts :=
        fun c hc => latestStep_some_le hacc hc
      rcases ih (latestStep ts acc r) hacc' with
        ⟨hres, hstepnone, hall⟩ | ⟨b, hres, hmem, hbts, hmax, haccle⟩
      · -- everything below the fold is empty
        have hrle : ¬ r.minute_ts ≤ ts := by
          intro h
          rcases @latestStep_of_le ts acc r h with ⟨x, hx, -, -⟩
          rw [hx] at hstepnone
          cases hstepnone
        have haccn : acc = none := by
          rw [latestStep_of_not_le hrle] at hstepnone
          exact hstepnone
        left
        refine ⟨by simpa using hres, haccn, ?_⟩
        intro s hs
        rcases List.mem_cons.mp hs with rfl | hs
        · exact hrle
        · exact hall s hs
      · right
        refine ⟨b, by simpa using hres, ?_, hbts, ?_, ?_⟩
        · rcases hmem with hb | hb
          · exact Or.inl (List.mem_cons_of_mem _ hb)
          · rcases latestStep_some_cases hb with ⟨rfl, -⟩ | hb
            · exact Or.inl (List.mem_cons_self _ _)
            · exact Or.inr hb
        · intro s hs hsts
          rcases List.mem_cons.mp hs with rfl | hs
          · rcases @latestStep_of_le ts acc s hsts with ⟨x, hx, hle, -⟩
            exact le_trans hle (haccle x hx)
          · exact hmax s hs hsts
        · intro c hc
          rcases @latestStep_acc_le ts acc r c hc with ⟨x, hx, hle⟩
          exact le_trans hle (haccle x hx)

/-- Characterization of the as-of lookup: `none` exactly when no row
qualifies, otherwise a qualifying row of maximal `minute_ts`. -/
theorem latestAtOrBefore_spec (rows : List CumRow) (ts : ℤ) :
    (latestAtOrBefore rows ts = none ∧ ∀ r ∈ rows, ¬ r.minute_ts ≤ ts) ∨
    (∃ b, latestAtOrBefore rows ts = some b ∧ b ∈ rows ∧ b.minute_ts ≤ ts ∧
      ∀ r ∈ rows, r.minute_ts ≤ ts → r.minute_ts ≤ b.minute_ts) := by
  rcases latestFold_spec ts rows none (by intro c hc; cases hc) with
    ⟨hres, -, hall⟩ | ⟨b, hres, hmem, hbts, hmax, -⟩
  · exact Or.inl ⟨hres, hall⟩
  · rcases hmem with hb | hb
    · exact Or.inr ⟨b, hres, hb, hbts, hmax⟩
    · cases hb

/-- Monotonicity of the as-of value under the cumulative-counter
invariant (values non-decreasing in `minute_ts`). -/
theorem cumulativeAsOf_mono (rows : List CumRow)
    (hmono : ∀ r ∈ rows, ∀ s ∈ rows, r.minute_ts ≤ s.minute_ts →
      r.cumulative_gas_used ≤ s.cumulative_gas_used)
    {t1 t2 : ℤ} (h : t1 ≤ t2) :
    cumulativeAsOf rows t1 ≤ cumulativeAsOf rows t2 := by
  rcases latestAtOrBefore_spec rows t1 with ⟨h1, -⟩ | ⟨b1, h1, hb1mem, hb1ts, -⟩
  · simp [cumulativeAsOf, h1]
  · rcases latestAtOrBefore_spec rows t2 with ⟨-, hall⟩ | ⟨b2, h2, hb2mem, hb2ts, hmax2⟩
    · exact absurd (le_trans hb1ts h) (hall b1 hb1mem)
    · simp only [cumulativeAsOf, h1, h2, Option.elim]
      exact hmono b1 hb1mem b2 hb2mem (hmax2 b1 hb1mem (le_trans hb1ts h))

/-- Distinctness of `minute_ts` keys (one row per minute per chain) makes
`minute_ts` injective on the rows. -/
theorem eq_of_minute_ts_eq {rows : List CumRow}
    (hkeys : rows.Pairwise (fun a b => a.minute_ts ≠ b.minute_ts))
    {a b : CumRow} (ha : a ∈ rows) (hb : b ∈ rows)
    (h : a.minute_ts = b.minute_ts) : a = b := by
  induction rows with
  | nil => cases ha
  | cons x xs ih =>
      rcases List.pairwise_cons.mp hkeys with ⟨hx, hxs⟩
      rcases List.mem_cons.mp ha with rfl | ha' <;>
        rcases List.mem_cons.mp hb with rfl | hb'
      · rfl
      · exact absurd h (hx b hb')
      · exact absurd h.symm (hx a ha')
      · exact ih hxs ha' hb'

/-- Claim-side as-of value: the cumulative value of the latest
CumulativeCounter row with `minuteTs <= ts` (`List.argmax` of the
qualifying rows by `minute_ts`), `0` when no such row exists. -/
def valueAsOf (rows : List CumRow) (ts : ℤ) : ℕ :=
  ((rows.filter (fun r => r.minute_ts ≤ ts)).argmax (fun r => r.minute_ts)).elim 0
    (fun r => r.cumulative_gas_used)

/-- The handler lookup agrees with the claim-side as-of value when the
`minute_ts` keys are pairwise distinct. -/
theorem cumulativeAsOf_eq_valueAsOf (rows : List CumRow) (ts : ℤ)
    (hkeys : rows.Pairwise (fun a b => a.minute_ts ≠ b.minute_ts)) :
    cumulativeAsOf rows ts = valueAsOf rows ts := by
  rcases latestAtOrBefore_spec rows ts with ⟨h1, hall⟩ | ⟨b, h1, hbmem, hbts, hmax⟩
  · have hfilter : rows.filter (fun r => r.minute_ts ≤ ts) = [] := by
      rw [List.filter_eq_nil_iff]
      intro r hr
      simpa using hall r hr
    simp [cumulativeAsOf, valueAsOf, h1, hfilter]
  · have hbf : b ∈ rows.filter (fun r => r.minute_ts ≤ ts) := by
      simp only [List.mem_filter, decide_eq_true_eq]
      exact ⟨hbmem, hbts⟩
    rcases hm : (rows.filter (fun r => r.minute_ts ≤ ts)).argmax
        (fun r => r.minute_ts) with _ | m
    · rw [List.argmax_eq_none] at hm
      rw [hm] at hbf
      cases hbf
    · have hmf := List.argmax_mem hm
      have hmmem : m ∈ rows := (List.mem_filter.mp hmf).1
      have hmts : m.minute_ts ≤ ts := by
        have := (List.mem_filter.mp hmf).2
        simpa using this
      have h1le : b.minute_ts ≤ m.minute_ts := List.le_of_mem_argmax hbf hm
      have h2le : m.minute_ts ≤ b.minute_ts := hmax m hmmem hmts
      have : b = m := eq_of_minute_ts_eq hkeys hbmem hmmem (le_antisymm h1le h2le)
      subst this
      simp [cumulativeAsOf, valueAsOf, h1, hm]

/-! Properties of the stable descending sort. -/

theorem insertDescBy_perm {α β : Type} [LinearOrder β] (key : α → β) (x : α)
    (l : List α) : (insertDescBy key x l).Perm (x :: l) := by
  induction l with
  | nil => exact List.Perm.refl _
  | cons h t ih =>
      unfold insertDescBy
      split
      · exact List.Perm.refl _
      · exact (ih.cons h).trans (List.Perm.swap x h t)

theorem sortDescBy_perm {α β : Type} [LinearOrder β] (key : α → β)
    (l : List α) : (sortDescBy key l).Perm l := by
  induction l with
  | nil => exact List.Perm.refl _
  | cons h t ih => exact (insertDescBy_perm key h (sortDescBy key t)).trans (ih.cons h)

theorem insertDescBy_sorted {α β : Type} [LinearOrder β] (key : α → β) (x : α)
    (l : List α) (hl : l.Pairwise (fun a b => key b ≤ key a)) :
    (insertDescBy key x l).Pairwise (fun a b => key b ≤ key a) := by
  induction l with
  | nil => simp [insertDescBy]
  | cons h t ih =>
      rcases List.pairwise_cons.mp hl with ⟨hh, ht⟩
      unfold insertDescBy
      split
      · refine List.pairwise_cons.mpr ⟨?_, hl⟩
        intro y hy
        rcases List.mem_cons.mp hy with rfl | hy
        · assumption
        · exact le_trans (hh y hy) (by assumption)
      · refine List.pairwise_cons.mpr ⟨?_, ih ht⟩
        intro y hy
        have hy' := (insertDescBy_perm key x t).mem_iff.mp hy
        rcases List.mem_cons.mp hy' with rfl | hy'
        · exact le_of_lt (lt_of_not_le (by assumption))
        · exact hh y hy'

theorem sortDescBy_sorted {α β : Type} [LinearOrder β] (key : α → β)
    (l : List α) : (sortDescBy key l).Pairwise (fun a b => key b ≤ key a) := by
  induction l with
  | nil => simp [sortDescBy]
  | cons h t ih => exact insertDescBy_sorted key h (sortDescBy key t) ih

theorem insertDescBy_filter_key {α β : Type} [LinearOrder β] (key : α → β)
    (x : α) (l : List α) (v : β) :
    (insertDescBy key x l).filter (fun a => key a = v) =
      if key x = v then x :: l.filter (fun a => key a = v)
      else l.filter (fun a => key a = v) := by
  induction l with
  | nil =>
      by_cases hx : key x = v <;> simp [insertDescBy, List.filter, hx]
  | cons h t ih =>
      unfold insertDescBy
      split
      · by_cases hx : key x = v <;> simp [List.filter_cons, hx]
      · have hxh : key x < key h := lt_of_not_le (by assumption)
        by_cases hx : key x = v
        · have hh : ¬ key h = v := by
            intro hhv
            exact absurd (hx.trans hhv.symm) (ne_of_lt hxh)
          simp [List.filter_cons, hx, hh, ih]
        · by_cases hh : key h = v <;> simp [List.filter_cons, hx, hh, ih]

theorem sortDescBy_filter_key {α β : Type} [LinearOrder β] (key : α → β)
    (l : List α) (v : β) :
    (sortDescBy key l).filter (fun a => key a = v) =
      l.filter (fun a => key a = v) := by
  induction l with
  | nil => simp [sortDescBy]
  | cons h t ih =>
      show (insertDescBy key h (sortDescBy key t)).filter _ = _
      rw [insertDescBy_filter_key]
      by_cases hh : key h = v <;> simp [List.filter_cons, hh, ih]

/-! Closed forms for the loop-built lists. -/

theorem range_reverse_eq_map (n : ℕ) :
    (List.range n).reverse = (List.range n).map (fun i => n - 1 - i) := by
  conv_lhs => rw [List.range_eq_range', List.reverse_range']
  refine List.map_congr_left ?_
  intro i _
  omega

theorem reverse_range_map {γ : Type} (n : ℕ) (f g : ℕ → γ)
    (h : ∀ i < n, f (n - 1 - i) = g i) :
    ((List.range n).map f).reverse = (List.range n).map g := by
  rw [← List.map_reverse, range_reverse_eq_map, List.map_map]
  refine List.map_congr_left ?_
  intro i hi
  have hi' : i < n := List.mem_range.mp hi
  simp only [Function.comp]
  exact h i hi'

theorem buildWindowsRev_eq (n : ℕ) : ∀ endTs : ℤ,
    buildWindowsRev n endTs = (List.range n).map (fun i : ℕ =>
      (endTs - ((i : ℤ) + 1) * windowSeconds, endTs - (i : ℤ) * windowSeconds)) := by
  induction n with
  | zero => intro endTs; simp [buildWindowsRev]
  | succ n ih =>
      intro endTs
      rw [buildWindowsRev, ih, List.range_succ_eq_map, List.map_cons, List.map_map]
      refine congrArg₂ _ (by norm_num) ?_
      refine List.map_congr_left ?_
      intro i _
      simp only [Function.comp]
      push_cast
      rw [Prod.mk.injEq]
      constructor <;> ring

theorem buildWindows_eq (now : ℤ) (count : ℕ) :
    buildWindows now count = (List.range count).map (fun j : ℕ =>
      (now - ((count : ℤ) - j) * windowSeconds,
       now - ((count : ℤ) - j - 1) * windowSeconds)) := by
  rw [buildWindows, buildWindowsRev_eq]
  refine reverse_range_map count _ _ ?_
  intro i hi
  have h1 : ((count - 1 - i : ℕ) : ℤ) = (count : ℤ) - 1 - i := by omega
  rw [h1]
  rw [Prod.mk.injEq]
  constructor <;> ring

/-- Evaluation of the gas-usage-period handler when the chain exists. -/
theorem gasUsagePeriod_ok (registry : List ChainConfig) (evmChainId : ℤ)
    (cfg : ChainConfig) (startTimestamp endTimestamp : ℤ) (rows : List CumRow)
    (hchain : findChain registry evmChainId = some cfg) :
    gasUsagePeriod registry evmChainId startTimestamp endTimestamp rows =
      .ok ⟨cumulativeAsOf rows endTimestamp - cumulativeAsOf rows startTimestamp,
        jsRound (if 0 < periodDaysOf startTimestamp endTimestamp then
          ((cumulativeAsOf rows endTimestamp -
            cumulativeAsOf rows startTimestamp : ℕ) : ℚ) /
            ((periodDaysOf startTimestamp endTimestamp : ℤ) : ℚ)
          else 0)⟩ := by
  unfold gasUsagePeriod
  rw [hchain]

/-- C1: for every chain and timestamps `fromTs`, `toTs`, the range-total
query returns `total = max(0, valueAsOf(toTs) - valueAsOf(fromTs))`,
where `valueAsOf(t)` is the cumulative value of the latest
CumulativeCounter row with `minuteTs <= t` and `0` when no such row
exists.  (The scenario instance with values 1000 and 1500 one day apart,
total 500, is checked in the witness.) -/
theorem range_total_eq_clamped_asof_difference
    (registry : List ChainConfig) (evmChainId : ℤ) (cfg : ChainConfig)
    (fromTs toTs : ℤ) (rows : List CumRow)
    (hchain : findChain registry evmChainId = some cfg)
    (hkeys : rows.Pairwise (fun a b => a.minute_ts ≠ b.minute_ts)) :
    ∃ res, gasUsagePeriod registry evmChainId fromTs toTs rows = .ok res ∧
      (res.totalGasUsed : ℤ) =
        max 0 ((valueAsOf rows toTs : ℤ) - (valueAsOf rows fromTs : ℤ)) := by
  refine ⟨_, gasUsagePeriod_ok registry evmChainId cfg fromTs toTs rows hchain, ?_⟩
  simp only
  rw [← cumulativeAsOf_eq_valueAsOf rows toTs hkeys,
    ← cumulativeAsOf_eq_valueAsOf rows fromTs hkeys]
  omega

/-- Witness for C1, at the spec scenario: cumulative value 1000 at
`t=1700000000` and 1500 at `t=1700086400`; the range total over that day
is 500 (and the served average is 500 as well). -/
theorem range_total_eq_clamped_asof_difference_witness :
    findChain [⟨43114, "Avalanche", "x"⟩] 43114 = some ⟨43114, "Avalanche", "x"⟩ ∧
    ([⟨1700000000, 1000⟩, ⟨1700086400, 1500⟩] : List CumRow).Pairwise
      (fun a b => a.minute_ts ≠ b.minute_ts) ∧
    (∃ res, gasUsagePeriod [⟨43114, "Avalanche", "x"⟩] 43114 1700000000 1700086400
        [⟨1700000000, 1000⟩, ⟨1700086400, 1500⟩] = .ok res ∧
      (res.totalGasUsed : ℤ) =
        max 0 ((valueAsOf [⟨1700000000, 1000⟩, ⟨1700086400, 1500⟩] 1700086400 : ℤ) -
          (valueAsOf [⟨1700000000, 1000⟩, ⟨1700086400, 1500⟩] 1700000000 : ℤ))) ∧
    gasUsagePeriod [⟨43114, "Avalanche", "x"⟩] 43114 1700000000 1700086400
      [⟨1700000000, 1000⟩, ⟨1700086400, 1500⟩] = .ok ⟨500, 500⟩ :=
  ⟨rfl, by decide,
    range_total_eq_clamped_asof_difference _ 43114 _ _ _ _ rfl (by decide),
    by norm_num [gasUsagePeriod, findChain, cumulativeAsOf, latestAtOrBefore,
      latestStep, periodDaysOf, jsRound]⟩

/-- C2: under the invariant that stored cumulative values are
non-decreasing in `minute_ts`, the as-of lookup is monotone in its
timestamp argument (a timestamp with no row at or before it reads as 0). -/
theorem cumulative_asof_monotone (rows : List CumRow)
    (hmono : ∀ r ∈ rows, ∀ s ∈ rows, r.minute_ts ≤ s.minute_ts →
      r.cumulative_gas_used ≤ s.cumulative_gas_used)
    (t1 t2 : ℤ) (h : t1 ≤ t2) :
    cumulativeAsOf rows t1 ≤ cumulativeAsOf rows t2 :=
  cumulativeAsOf_mono rows hmono h

/-- Witness for C2 at a concrete store and timestamps. -/
theorem cumulative_asof_monotone_witness :
    (∀ r ∈ ([⟨0, 5⟩, ⟨60, 7⟩] : List CumRow), ∀ s ∈ ([⟨0, 5⟩, ⟨60, 7⟩] : List CumRow),
      r.minute_ts ≤ s.minute_ts → r.cumulative_gas_used ≤ s.cumulative_gas_used) ∧
    (30 : ℤ) ≤ 70 ∧
    cumulativeAsOf [⟨0, 5⟩, ⟨60, 7⟩] 30 ≤ cumulativeAsOf [⟨0, 5⟩, ⟨60, 7⟩] 70 :=
  ⟨by decide, by decide,
    cumulative_asof_monotone [⟨0, 5⟩, ⟨60, 7⟩] (by decide) 30 70 (by decide)⟩

/-- C7: under the cumulative-counter monotonicity invariant, the range
total is additive over adjacent ranges `a <= b <= c`; the clamp never
fires on either summand. -/
theorem range_total_additive
    (registry : List ChainConfig) (evmChainId : ℤ) (cfg : ChainConfig)
    (a b c : ℤ) (rows : List CumRow)
    (hchain : findChain registry evmChainId = some cfg)
    (hmono : ∀ r ∈ rows, ∀ s ∈ rows, r.minute_ts ≤ s.minute_ts →
      r.cumulative_gas_used ≤ s.cumulative_gas_used)
    (hab : a ≤ b) (hbc : b ≤ c) :
    ∃ rac rab rbc,
      gasUsagePeriod registry evmChainId a c rows = .ok rac ∧
      gasUsagePeriod registry evmChainId a b rows = .ok rab ∧
      gasUsagePeriod registry evmChainId b c rows = .ok rbc ∧
      rac.totalGasUsed = rab.totalGasUsed + rbc.totalGasUsed := by
  have hvab := cumulativeAsOf_mono rows hmono hab
  have hvbc := cumulativeAsOf_mono rows hmono hbc
  refine ⟨_, _, _, gasUsagePeriod_ok registry evmChainId cfg a c rows hchain,
    gasUsagePeriod_ok registry evmChainId cfg a b rows hchain,
    gasUsagePeriod_ok registry evmChainId cfg b c rows hchain, ?_⟩
  simp only
  omega

/-- Witness for C7 at a concrete monotone store and `a <= b <= c`. -/
theorem range_total_additive_witness :
    findChain [⟨1, "c", "b"⟩] 1 = some ⟨1, "c", "b"⟩ ∧
    (∀ r ∈ ([⟨0, 5⟩, ⟨60, 7⟩, ⟨120, 11⟩] : List CumRow),
      ∀ s ∈ ([⟨0, 5⟩, ⟨60, 7⟩, ⟨120, 11⟩] : List CumRow),
      r.minute_ts ≤ s.minute_ts → r.cumulative_gas_used ≤ s.cumulative_gas_used) ∧
    (0 : ℤ) ≤ 60 ∧ (60 : ℤ) ≤ 130 ∧
    ∃ rac rab rbc,
      gasUsagePeriod [⟨1, "c", "b"⟩] 1 0 130 [⟨0, 5⟩, ⟨60, 7⟩, ⟨120, 11⟩] = .ok rac ∧
      gasUsagePeriod [⟨1, "c", "b"⟩] 1 0 60 [⟨0, 5⟩, ⟨60, 7⟩, ⟨120, 11⟩] = .ok rab ∧
      gasUsagePeriod [⟨1, "c", "b"⟩] 1 60 130 [⟨0, 5⟩, ⟨60, 7⟩, ⟨120, 11⟩] = .ok rbc ∧
      rac.totalGasUsed = rab.totalGasUsed + rbc.totalGasUsed :=
  ⟨rfl, by decide, by decide, by decide,
    range_total_additive _ 1 _ 0 60 130 _ rfl (by decide) (by decide) (by decide)⟩

theorem periodDaysOf_nonpos {fromTs toTs : ℤ} (h : toTs ≤ fromTs) :
    periodDaysOf fromTs toTs ≤ 0 := by
  unfold periodDaysOf
  rw [show ((0 : ℤ) = ((0 : ℤ) : ℤ)) from rfl, Int.ceil_le]
  push_cast
  apply div_nonpos_of_nonpos_of_nonneg
  · exact sub_nonpos.mpr (by exact_mod_cast h)
  · norm_num

theorem periodDaysOf_pos {fromTs toTs : ℤ} (h : fromTs < toTs) :
    0 < periodDaysOf fromTs toTs := by
  unfold periodDaysOf
  rw [Int.lt_ceil]
  push_cast
  apply div_pos
  · exact sub_pos.mpr (by exact_mod_cast h)
  · norm_num

/-- C3 counterexample: the claim fails on the code as stated.
First, the active-addresses-period handler (one of the cited range
queries) returns non-zero totals for a degenerate range
`toTs = 50 <= fromTs = 100` when the single day-0 rows exist, instead of
the claimed `0`; second, the gas-usage-period handler serves
`Math.round(total / periodDays)` — at `total = 1` over 2 days it serves
`1`, not the claimed exact quotient `1/2 = total / max(1, ceil(...))`. -/
theorem range_avg_formula_cex :
    (50 : ℤ) ≤ 100 ∧
    activeAddressesPeriod [⟨1, "c", "b"⟩] 1 100 50 ⟨[⟨0, "a"⟩], [⟨0, 7, 3⟩]⟩ =
      .ok ⟨1, 7, 3⟩ ∧
    periodDaysOf 0 172800 = 2 ∧
    gasUsagePeriod [⟨1, "c", "b"⟩] 1 0 172800 [⟨0, 0⟩, ⟨60, 1⟩] = .ok ⟨1, 1⟩ ∧
    ((1 : ℚ) ≠ (1 : ℚ) / ((max 1 (periodDaysOf 0 172800) : ℤ) : ℚ)) := by
  refine ⟨by norm_num, ?_, ?_, ?_, ?_⟩
  · norm_num [activeAddressesPeriod, findChain, dayFloor, List.filter, List.dedup]
  · norm_num [periodDaysOf]
  · norm_num [gasUsagePeriod, findChain, cumulativeAsOf, latestAtOrBefore,
      latestStep, periodDaysOf, jsRound]
  · norm_num [periodDaysOf]

/-- C3 amended: for the gas-usage-period query, under the sorted
non-decreasing cumulative-store invariant: a degenerate range
`toTs <= fromTs` yields `{totalGasUsed: 0, avgDailyGasUsed: 0}` without
error; for `fromTs < toTs` the period-day count `ceil((toTs-fromTs)/86400)`
is at least 1 (so it coincides with `max(1, ceil(...))`) and the served
average equals `Math.round(total / ceil((toTs-fromTs)/86400))` — the
handler rounds the quotient to the nearest integer rather than serving
the exact quotient, and the active-addresses-period handler is excluded:
it averages over the day rows present and may return non-zero totals for
a day-aligned degenerate range (see the counterexample). -/
theorem range_avg_and_degenerate_range
    (registry : List ChainConfig) (evmChainId : ℤ) (cfg : ChainConfig)
    (fromTs toTs : ℤ) (rows : List CumRow)
    (hchain : findChain registry evmChainId = some cfg)
    (hmono : ∀ r ∈ rows, ∀ s ∈ rows, r.minute_ts ≤ s.minute_ts →
      r.cumulative_gas_used ≤ s.cumulative_gas_used) :
    (toTs ≤ fromTs →
      gasUsagePeriod registry evmChainId fromTs toTs rows = .ok ⟨0, 0⟩) ∧
    (fromTs < toTs →
      max 1 (periodDaysOf fromTs toTs) = periodDaysOf fromTs toTs ∧
      ∃ res, gasUsagePeriod registry evmChainId fromTs toTs rows = .ok res ∧
        res.avgDailyGasUsed =
          jsRound ((res.totalGasUsed : ℚ) /
            ((max 1 (periodDaysOf fromTs toTs) : ℤ) : ℚ))) := by
  constructor
  · intro h
    rw [gasUsagePeriod_ok registry evmChainId cfg fromTs toTs rows hchain]
    have htot : cumulativeAsOf rows toTs - cumulativeAsOf rows fromTs = 0 :=
      Nat.sub_eq_zero_of_le (cumulativeAsOf_mono rows hmono h)
    have hd : ¬ 0 < periodDaysOf fromTs toTs := by
      have := periodDaysOf_nonpos h
      omega
    rw [htot, if_neg hd]
    norm_num [jsRound]
  · intro h
    have hd := periodDaysOf_pos h
    have hmax : max 1 (periodDaysOf fromTs toTs) = periodDaysOf fromTs toTs :=
      max_eq_right (by omega)
    refine ⟨hmax, _,
      gasUsagePeriod_ok registry evmChainId cfg fromTs toTs rows hchain, ?_⟩
    simp only
    rw [if_pos hd, hmax]

/-- Witness for the amended C3, at a concrete monotone store: both a
degenerate range and a 2-day range. -/
theorem range_avg_and_degenerate_range_witness :
    findChain [⟨1, "c", "b"⟩] 1 = some ⟨1, "c", "b"⟩ ∧
    (∀ r ∈ ([⟨0, 0⟩, ⟨60, 1⟩] : List CumRow),
      ∀ s ∈ ([⟨0, 0⟩, ⟨60, 1⟩] : List CumRow),
      r.minute_ts ≤ s.minute_ts → r.cumulative_gas_used ≤ s.cumulative_gas_used) ∧
    ((50 : ℤ) ≤ 100 →
      gasUsagePeriod [⟨1, "c", "b"⟩] 1 100 50 [⟨0, 0⟩, ⟨60, 1⟩] = .ok ⟨0, 0⟩) ∧
    ((0 : ℤ) < 172800 →
      max 1 (periodDaysOf 0 172800) = periodDaysOf 0 172800 ∧
      ∃ res, gasUsagePeriod [⟨1, "c", "b"⟩] 1 0 172800 [⟨0, 0⟩, ⟨60, 1⟩] = .ok res ∧
        res.avgDailyGasUsed =
          jsRound ((res.totalGasUsed : ℚ) /
            ((max 1 (periodDaysOf 0 172800) : ℤ) : ℚ))) :=
  ⟨rfl, by decide,
    (range_avg_and_degenerate_range [⟨1, "c", "b"⟩] 1 ⟨1, "c", "b"⟩ 100 50
      [⟨0, 0⟩, ⟨60, 1⟩] rfl (by decide)).1,
    (range_avg_and_degenerate_range [⟨1, "c", "b"⟩] 1 ⟨1, "c", "b"⟩ 0 172800
      [⟨0, 0⟩, ⟨60, 1⟩] rfl (by decide)).2⟩

/-- C4: a registered chain with no stored rows gets zero-valued results
from every gas and address query, never an error: period totals and
averages are 0, the cumulative as-of lookup serves the zero sentinel, and
every daily-gas point carries 0 gas. -/
theorem empty_store_zero_results
    (registry : List ChainConfig) (evmChainId : ℤ) (cfg : ChainConfig)
    (hchain : findChain registry evmChainId = some cfg)
    (fromTs toTs now : ℤ) (tsOpt : Option ℤ) (days : ℕ) :
    gasUsagePeriod registry evmChainId fromTs toTs [] = .ok ⟨0, 0⟩ ∧
    (∃ r, cumulativeGas registry evmChainId now tsOpt [] = .ok r ∧
      r.cumulativeGasUsed = 0) ∧
    activeAddressesPeriod registry evmChainId fromTs toTs ⟨[], []⟩ = .ok ⟨0, 0, 0⟩ ∧
    (∃ l, dailyGas registry evmChainId now days [] = .ok l ∧
      ∀ p ∈ l, p.gasUsed = 0) := by
  refine ⟨?_, ?_, ?_, ?_⟩
  · rw [gasUsagePeriod_ok registry evmChainId cfg fromTs toTs [] hchain]
    have h0 : cumulativeAsOf [] toTs - cumulativeAsOf [] fromTs = 0 := rfl
    rw [h0]
    have : ∀ q : ℚ, (if 0 < periodDaysOf fromTs toTs then
        ((0 : ℕ) : ℚ) / ((periodDaysOf fromTs toTs : ℤ) : ℚ) else 0) = 0 := by
      intro q
      split <;> simp
    rw [this 0]
    norm_num [jsRound]
  · unfold cumulativeGas
    rw [hchain]
    simp only [latestAtOrBefore, latestRow, List.foldl_nil, ite_self]
    exact ⟨_, rfl, rfl⟩
  · unfold activeAddressesPeriod
    rw [hchain]
    simp [List.filter]
  · refine ⟨((List.range days).map (fun i : ℕ =>
      (⟨now - (i : ℤ) * 86400 - 86400, 0⟩ : DailyGasPoint))).reverse, ?_, ?_⟩
    · unfold dailyGas
      rw [hchain]
      simp [List.filter]
    · intro p hp
      rw [List.mem_reverse] at hp
      rcases List.mem_map.mp hp with ⟨i, -, rfl⟩
      rfl

/-- Witness for C4 at a concrete registry and arguments. -/
theorem empty_store_zero_results_witness :
    findChain [⟨1, "c", "b"⟩] 1 = some ⟨1, "c", "b"⟩ ∧
    (gasUsagePeriod [⟨1, "c", "b"⟩] 1 0 86400 [] = .ok ⟨0, 0⟩ ∧
    (∃ r, cumulativeGas [⟨1, "c", "b"⟩] 1 1000 none [] = .ok r ∧
      r.cumulativeGasUsed = 0) ∧
    activeAddressesPeriod [⟨1, "c", "b"⟩] 1 0 86400 ⟨[], []⟩ = .ok ⟨0, 0, 0⟩ ∧
    (∃ l, dailyGas [⟨1, "c", "b"⟩] 1 1000 2 [] = .ok l ∧
      ∀ p ∈ l, p.gasUsed = 0)) :=
  ⟨rfl, empty_store_zero_results [⟨1, "c", "b"⟩] 1 ⟨1, "c", "b"⟩ rfl 0 86400 1000 none 2⟩

/-- C5 counterexample: the N-latest-blocks endpoint serves a 200 response
for chain id 99999 although the registry is empty — no `ChainNotFound` is
raised, and the blocks database is read. -/
theorem chain_not_found_cex :
    findChain [] 99999 = none ∧
    latestBlocksList [] 99999
        ⟨5, fun n => if n = 5 then some ⟨5, 100, 2⟩ else none⟩ 2 =
      .ok ⟨99999, 5, [⟨5, 100, 2⟩]⟩ := by
  exact ⟨rfl, rfl⟩

/-- C5 amended: each rollup-analytics handler (gas-usage-period,
cumulative-gas, daily-gas, active-addresses-period,
daily-active-addresses) raises `ChainNotFound` for an `evmChainId`
absent from the registry, whatever the storage contents (so before and
independent of any storage access); the N-latest-blocks endpoint,
however, performs no registry check at all and replies 200 from the
blocks database. -/
theorem chain_not_found_before_storage
    (registry : List ChainConfig) (evmChainId : ℤ)
    (habs : findChain registry evmChainId = none) :
    (∀ fromTs toTs rows, gasUsagePeriod registry evmChainId fromTs toTs rows =
      .error (.chainNotFound evmChainId)) ∧
    (∀ now tsOpt rows, cumulativeGas registry evmChainId now tsOpt rows =
      .error (.chainNotFound evmChainId)) ∧
    (∀ now days rows, dailyGas registry evmChainId now days rows =
      .error (.chainNotFound evmChainId)) ∧
    (∀ fromTs toTs store, activeAddressesPeriod registry evmChainId fromTs toTs store =
      .error (.chainNotFound evmChainId)) ∧
    (∀ now days store, dailyActiveAddresses registry evmChainId now days store =
      .error (.chainNotFound evmChainId)) ∧
    (∀ db count, ∃ res, latestBlocksList registry evmChainId db count = .ok res) := by
  refine ⟨?_, ?_, ?_, ?_, ?_, ?_⟩
  · intro fromTs toTs rows
    unfold gasUsagePeriod
    rw [habs]
  · intro now tsOpt rows
    unfold cumulativeGas
    rw [habs]
  · intro now days rows
    unfold dailyGas
    rw [habs]
  · intro fromTs toTs store
    unfold activeAddressesPeriod
    rw [habs]
  · intro now days store
    unfold dailyActiveAddresses
    rw [habs]
  · intro db count
    exact ⟨_, rfl⟩

/-- Witness for the amended C5: chain 99999 with an empty registry. -/
theorem chain_not_found_before_storage_witness :
    findChain [] 99999 = none ∧
    (gasUsagePeriod [] 99999 0 1 [] = .error (.chainNotFound 99999) ∧
      cumulativeGas [] 99999 0 none [] = .error (.chainNotFound 99999) ∧
      dailyGas [] 99999 0 1 [] = .error (.chainNotFound 99999) ∧
      activeAddressesPeriod [] 99999 0 1 ⟨[], []⟩ = .error (.chainNotFound 99999) ∧
      dailyActiveAddresses [] 99999 0 1 ⟨[], []⟩ = .error (.chainNotFound 99999) ∧
      ∃ res, latestBlocksList [] 99999 ⟨0, fun _ => none⟩ 1 = .ok res) := by
  have h := chain_not_found_before_storage [] 99999 rfl
  exact ⟨rfl, h.1 0 1 [], h.2.1 0 none [], h.2.2.1 0 1 [],
    h.2.2.2.1 0 1 ⟨[], []⟩, h.2.2.2.2.1 0 1 ⟨[], []⟩,
    h.2.2.2.2.2 ⟨0, fun _ => none⟩ 1⟩

/-- C9: in the cumulative as-of query a supplied timestamp `0` is falsy
and treated exactly like an omitted timestamp (the latest row is served,
not the value as of Unix time 0); with an empty cumulative table the
response carries the supplied timestamp when non-zero, or the clock time
when omitted or zero, with cumulative value 0. -/
theorem cumulative_gas_zero_timestamp
    (registry : List ChainConfig) (evmChainId : ℤ) (cfg : ChainConfig)
    (hchain : findChain registry evmChainId = some cfg)
    (now t : ℤ) (rows : List CumRow) :
    cumulativeGas registry evmChainId now (some 0) rows =
      cumulativeGas registry evmChainId now none rows ∧
    cumulativeGas registry evmChainId now (some t) [] =
      .ok ⟨if t = 0 then now else t, 0⟩ ∧
    cumulativeGas registry evmChainId now none [] = .ok ⟨now, 0⟩ := by
  refine ⟨?_, ?_, ?_⟩
  · unfold cumulativeGas
    rw [hchain]
    simp [tsTruthy]
  · unfold cumulativeGas
    rw [hchain]
    by_cases ht : t = 0
    · subst ht
      simp [tsTruthy, latestRow]
    · simp [tsTruthy, ht, latestAtOrBefore]
  · unfold cumulativeGas
    rw [hchain]
    simp [tsTruthy, latestRow]

/-- Witness for C9 at a concrete registry, clock and store. -/
theorem cumulative_gas_zero_timestamp_witness :
    findChain [⟨1, "c", "b"⟩] 1 = some ⟨1, "c", "b"⟩ ∧
    (cumulativeGas [⟨1, "c", "b"⟩] 1 500 (some 0) [⟨60, 9⟩] =
      cumulativeGas [⟨1, "c", "b"⟩] 1 500 none [⟨60, 9⟩] ∧
    cumulativeGas [⟨1, "c", "b"⟩] 1 500 (some 7) [] =
      .ok ⟨if (7 : ℤ) = 0 then 500 else 7, 0⟩ ∧
    cumulativeGas [⟨1, "c", "b"⟩] 1 500 none [] = .ok ⟨500, 0⟩) :=
  ⟨rfl, cumulative_gas_zero_timestamp [⟨1, "c", "b"⟩] 1 ⟨1, "c", "b"⟩ rfl 500 7 [⟨60, 9⟩]⟩

/-- C6 counterexample: two LayerZero chain pairs with equal `total = 10`
for counterparty chain ids 5 and 3 come out of the sort in generation
order — counterparty `"5"` before `"3"` although `3 < 5` — because the
comparator `(a, b) => b.total - a.total` applies no `counterpartyChainId`
tie-break. -/
theorem chain_pairs_tie_order_cex :
    detailedChainPairs [⟨5, false, 10⟩, ⟨3, false, 10⟩] [] =
      [⟨"5", .layerzero, 10, 0, 10⟩, ⟨"3", .layerzero, 10, 0, 10⟩] ∧
    (3 : ℤ) < 5 := by
  constructor
  · rfl
  · decide

/-- C6 amended: the chain-pair breakdown is sorted by `total` descending
and is a permutation of the generated rows, and rows with equal `total`
keep their generation order (the sort is stable; LayerZero pairs precede
ICM pairs, each in first-appearance order) — they are not reordered by
`counterpartyChainId`. -/
theorem chain_pairs_sorted_stable (lzRows : List LzGroupedRow)
    (tpRows : List TpGroupedRow) :
    ((detailedChainPairs lzRows tpRows).Pairwise (fun a b => b.total ≤ a.total)) ∧
    ((detailedChainPairs lzRows tpRows).Perm (mkChainPairs lzRows tpRows)) ∧
    (∀ v : ℕ, (detailedChainPairs lzRows tpRows).filter (fun p => p.total = v) =
      (mkChainPairs lzRows tpRows).filter (fun p => p.total = v)) := by
  refine ⟨?_, ?_, ?_⟩
  · exact sortDescBy_sorted (fun p => p.total) (mkChainPairs lzRows tpRows)
  · exact sortDescBy_perm (fun p => p.total) (mkChainPairs lzRows tpRows)
  · exact fun v => sortDescBy_filter_key (fun p => p.total) (mkChainPairs lzRows tpRows) v

/-- C8 counterexample: the daily-active-addresses series is served in the
`ORDER BY day_ts DESC` order of the SQL query, newest first — at
`now = 172800`, `days = 2` the day-172800 point precedes the day-86400
point, so the sequence is not chronological (oldest-first). -/
theorem daily_series_order_cex :
    dailyActiveAddresses [⟨1, "c", "b"⟩] 1 172800 2
        ⟨[], [⟨86400, 1, 1⟩, ⟨172800, 2, 2⟩]⟩ =
      .ok [⟨172800, 2, 2⟩, ⟨86400, 1, 1⟩] ∧
    (86400 : ℤ) < 172800 := by
  constructor
  · norm_num [dailyActiveAddresses, findChain, dayFloor, sortDescBy,
      insertDescBy, List.filter, List.foldr]
  · norm_num

/-- C8 amended: the daily-gas series is chronological — it returns
exactly `days` points whose timestamps are the starts of consecutive
24-hour windows `now - (days - j) * 86400` for `j = 0 .. days-1`, oldest
first, the last window ending at the request time; the
daily-active-addresses series instead returns the stored rows of the
most recent `days` calendar days in reverse chronological (newest-first)
order. -/
theorem daily_series_order
    (registry : List ChainConfig) (evmChainId : ℤ) (cfg : ChainConfig)
    (hchain : findChain registry evmChainId = some cfg)
    (now : ℤ) (days : ℕ) (mrows : List MinuteRow) (store : AddressStore) :
    (∃ l, dailyGas registry evmChainId now days mrows = .ok l ∧
      l.map (fun p => p.timestamp) =
        (List.range days).map (fun j : ℕ => now - ((days : ℤ) - j) * 86400)) ∧
    (∃ l, dailyActiveAddresses registry evmChainId now days store = .ok l ∧
      l.Pairwise (fun a b => b.timestamp ≤ a.timestamp)) := by
  constructor
  · refine ⟨((List.range days).map (fun i : ℕ =>
      (⟨now - (i : ℤ) * 86400 - 86400,
        ((mrows.filter (fun r => now - (i : ℤ) * 86400 - 86400 ≤ r.minute_ts ∧
          r.minute_ts < now - (i : ℤ) * 86400)).map
            (fun r => r.gas_used)).sum⟩ : DailyGasPoint))).reverse, ?_, ?_⟩
    · unfold dailyGas
      rw [hchain]
    · rw [List.map_reverse, List.map_map]
      refine reverse_range_map days _ _ ?_
      intro i hi
      simp only [Function.comp]
      have h1 : ((days - 1 - i : ℕ) : ℤ) = (days : ℤ) - 1 - i := by omega
      rw [h1]
      ring
  · refine ⟨(sortDescBy (fun r => r.day_ts) (store.counts.filter (fun r =>
        dayFloor now - ((days : ℤ) - 1) * 86400 ≤ r.day_ts ∧
        r.day_ts ≤ dayFloor now))).map
        (fun r => ⟨r.day_ts, r.active_addresses, r.total_txs⟩), ?_, ?_⟩
    · unfold dailyActiveAddresses
      rw [hchain]
    · exact List.Pairwise.map
        (fun r : DailyCountRow =>
          (⟨r.day_ts, r.active_addresses, r.total_txs⟩ : DailyActivePoint))
        (fun (a b : DailyCountRow) (h : b.day_ts ≤ a.day_ts) => h)
        (sortDescBy_sorted (fun r : DailyCountRow => r.day_ts) _)

/-- Witness for the amended C8 at a concrete registry and inputs. -/
theorem daily_series_order_witness :
    findChain [⟨1, "c", "b"⟩] 1 = some ⟨1, "c", "b"⟩ ∧
    ((∃ l, dailyGas [⟨1, "c", "b"⟩] 1 200000 2 [] = .ok l ∧
      l.map (fun p => p.timestamp) =
        (List.range 2).map (fun j : ℕ => 200000 - (((2 : ℕ) : ℤ) - j) * 86400)) ∧
    (∃ l, dailyActiveAddresses [⟨1, "c", "b"⟩] 1 200000 2
        ⟨[], [⟨86400, 1, 1⟩, ⟨172800, 2, 2⟩]⟩ = .ok l ∧
      l.Pairwise (fun a b => b.timestamp ≤ a.timestamp))) :=
  ⟨rfl,
    daily_series_order [⟨1, "c", "b"⟩] 1 ⟨1, "c", "b"⟩ rfl 200000 2 []
      ⟨[], [⟨86400, 1, 1⟩, ⟨172800, 2, 2⟩]⟩⟩

/-- C10: the requested window count is clamped into `[1, 24]` with
default 12; the per-chain data of the comparison endpoint consists of
exactly that many consecutive 30-day windows in chronological order
(window `j` spans `[now - (count-j)*30d, now - (count-j-1)*30d]`, so
adjacent windows share a boundary), the last ending at the request time;
each point counts exactly the messages with
`fromTs < block_timestamp <= toTs`, and no timestamp lies in two
distinct windows. -/
theorem comparison_window_structure (now : ℤ) (req : Option ℤ)
    (lz tp : List ℤ) :
    (1 ≤ clampWindowCount req ∧ clampWindowCount req ≤ 24) ∧
    (req = none → clampWindowCount req = 12) ∧
    (∀ r, req = some r → 1 ≤ r → r ≤ 24 → clampWindowCount req = r) ∧
    (comparisonChainData now req lz tp).length = (clampWindowCount req).toNat ∧
    ((comparisonChainData now req lz tp).map (fun d => (d.fromTs, d.toTs)) =
      buildWindows now (clampWindowCount req).toNat) ∧
    (buildWindows now (clampWindowCount req).toNat =
      (List.range (clampWindowCount req).toNat).map (fun j : ℕ =>
        (now - (((clampWindowCount req).toNat : ℤ) - j) * windowSeconds,
         now - (((clampWindowCount req).toNat : ℤ) - j - 1) * windowSeconds))) ∧
    ((buildWindows now (clampWindowCount req).toNat).getLast? =
      some (now - windowSeconds, now)) ∧
    (∀ d ∈ comparisonChainData now req lz tp,
      d.layerzero = countInWindow lz d.fromTs d.toTs ∧
      d.icm = countInWindow tp d.fromTs d.toTs) ∧
    (∀ t : ℤ, ∀ w1 ∈ buildWindows now (clampWindowCount req).toNat,
      ∀ w2 ∈ buildWindows now (clampWindowCount req).toNat,
      w1.1 < t → t ≤ w1.2 → w2.1 < t → t ≤ w2.2 → w1 = w2) := by
  have hclamp : 1 ≤ clampWindowCount req ∧ clampWindowCount req ≤ 24 := by
    unfold clampWindowCount
    omega
  refine ⟨hclamp, ?_, ?_, ?_, ?_, buildWindows_eq now _, ?_, ?_, ?_⟩
  · intro h
    subst h
    rfl
  · intro r h h1 h24
    subst h
    unfold clampWindowCount
    simp only [Option.getD_some]
    omega
  · rw [comparisonChainData, List.length_map, buildWindows_eq,
      List.length_map, List.length_range]
  · rw [comparisonChainData, List.map_map]
    refine List.map_congr_left ?_ |>.trans (List.map_id _)
    intro w _
    rfl
  · have hk : 0 < (clampWindowCount req).toNat := by omega
    obtain ⟨m, hm⟩ : ∃ m, (clampWindowCount req).toNat = m + 1 :=
      ⟨(clampWindowCount req).toNat - 1, by omega⟩
    rw [buildWindows, hm, List.getLast?_reverse]
    rfl
  · intro d hd
    rcases List.mem_map.mp hd with ⟨w, -, rfl⟩
    exact ⟨rfl, rfl⟩
  · intro t w1 hw1 w2 hw2 ha1 ha2 hb1 hb2
    rw [buildWindows_eq] at hw1 hw2
    rcases List.mem_map.mp hw1 with ⟨j1, hj1, rfl⟩
    rcases List.mem_map.mp hw2 with ⟨j2, hj2, rfl⟩
    rw [List.mem_range] at hj1 hj2
    have hW : windowSeconds = 2592000 := rfl
    rw [hW] at ha1 ha2 hb1 hb2 ⊢
    simp only at ha1 ha2 hb1 hb2
    obtain rfl : j1 = j2 := by omega
    rfl

/-- Witness for C10 at a concrete request time, count and stores. -/
theorem comparison_window_structure_witness :
    clampWindowCount (some 2) = 2 ∧
    (comparisonChainData 5184000 (some 2) [10] [20]).length = 2 ∧
    (buildWindows 5184000 (clampWindowCount (some 2)).toNat).getLast? =
      some (5184000 - windowSeconds, 5184000) := by
  have h := comparison_window_structure 5184000 (some 2) [10] [20]
  have hc : clampWindowCount (some 2) = 2 :=
    h.2.2.1 2 rfl (by norm_num) (by norm_num)
  refine ⟨hc, ?_, h.2.2.2.2.2.2.1⟩
  rw [h.2.2.2.1, hc]
  rfl

end L1Beat
